import Mathlib

/-!
Shallow embedding of `src/dispatch/static/dispatch/src/tag/TagPicker.vue`
(the Dispatch tag-picker component) and proofs about its observable behavior:
selection toggling and removal, the exclusivity-based disabling rule, grouping
of fetched tags by tag type, local search filtering, the fetch filter
construction, the defensive string filter on emitted selections, and the
clipboard serialization.

JavaScript objects are embedded as Lean structures; JS deep ("loose") equality
between them is structural equality; numeric ids are `Nat`; arrays are `List`.
-/

/-- A tag type (`tag_type` field of a fetched tag): the category a tag
belongs to.  Fields are the ones the component reads. -/
structure TagType where
  id : Nat
  name : String
  description : String
  icon : String
  color : String
  exclusive : Bool
deriving DecidableEq, Repr

/-- A fetched/selectable tag, as the component reads it. -/
structure Tag where
  id : Nat
  name : String
  color : String
  tag_type : TagType
deriving DecidableEq, Repr

/-- A derived group shown in the dropdown, one per distinct `tag_type.id`
(built by `convertData`; named `TagGroup` here to avoid clashing with Mathlib.Group). -/
structure TagGroup where
  id : Nat
  icon : String
  label : String
  desc : String
  color : String
  isExclusive : Bool
  menuItems : List Tag
deriving DecidableEq, Repr

/-- An entry of the array the `selectedItems` computed setter receives: either
an accidental string or a genuine tag object (in JS, `typeof v === "string"`
distinguishes the two). -/
inductive SelEntry where
  | str (s : String)
  | tag (t : Tag)
deriving DecidableEq, Repr

/-- `typeof v === "string"` on a selection entry. -/
def isStringEntry : SelEntry → Bool
  | .str _ => true
  | .tag _ => false

/-- The `selectedItems` computed setter
(`value.filter(v => typeof v === "string" ? false : true)`): the array that is
emitted via `update:modelValue` drops exactly the string-typed entries. -/
def emitSelection (value : List SelEntry) : List SelEntry :=
  value.filter fun v => !(isStringEntry v)

/-- Vue's array `v-model` semantics on the checkbox bound to `selectedItems`
(runtime-dom `vModelCheckbox`): checking a box whose value is absent from the
model array appends it (`modelValue.concat(elementValue)`); unchecking a box
whose value is present removes the first loosely-equal occurrence
(`splice(looseIndexOf(...), 1)`).  Loose equality of tag objects is structural
equality here. -/
def toggle (sel : List Tag) (item : Tag) : List Tag :=
  if item ∈ sel then sel.erase item else sel ++ [item]

/-- `removeItem` (`selectedItems.value.filter(item => item.id !== index)`):
drops every selected tag whose `id` equals the removed id. -/
def removeItem (sel : List Tag) (i : Nat) : List Tag :=
  sel.filter fun t => t.id != i

/-- `isItemDisabled(group, item)`: some selected tag belongs to the group
(`selectedItem.tag_type.id === group.id`) and no selected tag has the item's
`id`. -/
def isItemDisabled (sel : List Tag) (group : TagGroup) (item : Tag) : Bool :=
  (sel.any fun s => s.tag_type.id == group.id) &&
    !(sel.any fun s => s.id == item.id)

/-- The checkbox `:disabled` binding:
`group.isExclusive && isItemDisabled(group, item)`. -/
def disabledAttr (sel : List Tag) (group : TagGroup) (item : Tag) : Bool :=
  group.isExclusive && isItemDisabled sel group item

/-- The group metadata `convertData` copies from a tag type when it creates a
fresh entry for that tag type's id (`menuItems` starts empty and tags are
pushed afterwards). -/
def mkGroupOfType (tt : TagType) : TagGroup :=
  { id := tt.id, icon := tt.icon, label := tt.name, desc := tt.description,
    color := tt.color, isExclusive := tt.exclusive, menuItems := [] }

/-- One step of the `reduce` inside `convertData`: if the accumulator object
has no entry under key `a.tag_type.id`, create one with the tag type's
metadata; then push `a` onto that entry's `menuItems`.  The JS accumulator
object is embedded as an association list in key-insertion order. -/
def addToGroup (acc : List (Nat × TagGroup)) (a : Tag) : List (Nat × TagGroup) :=
  if acc.any fun p => p.1 == a.tag_type.id then
    acc.map fun p =>
      if p.1 == a.tag_type.id then
        (p.1, { p.2 with menuItems := p.2.menuItems ++ [a] })
      else p
  else
    acc ++ [(a.tag_type.id,
      { mkGroupOfType a.tag_type with menuItems := [a] })]

/-- The `groupedObject` accumulator of `convertData` after reducing the whole
fetched list. -/
def groupedObject (data : List Tag) : List (Nat × TagGroup) :=
  data.foldl addToGroup []

/-- `Object.keys` on the accumulator object: all keys are numeric-string keys
(tag-type ids), so JS property-ordering returns them in ascending numeric
order, not insertion order. -/
def objectKeys (m : List (Nat × TagGroup)) : List Nat :=
  (m.map Prod.fst).insertionSort (· ≤ ·)

/-- `convertData`: reduce the fetched tags into the keyed accumulator, then
`Object.keys(...).map(key => groupedObject[key])`. -/
def convertData (data : List Tag) : List TagGroup :=
  (objectKeys (groupedObject data)).filterMap fun k =>
    ((groupedObject data).find? fun p => p.1 == k).map Prod.snd

/-- Tag-type ids of a fetched list in first-seen order (the order the spec
asserts for the groups); used to compare with the order `convertData`
actually produces. -/
def firstSeenIds (data : List Tag) : List Nat :=
  data.foldl (fun acc a =>
    if a.tag_type.id ∈ acc then acc else acc ++ [a.tag_type.id]) []

/-- The group `convertData` builds for key `k`: metadata from the first
fetched tag whose `tag_type.id` is `k`, menu items all such tags in fetch
order.  (The `none` branch is never reached for keys of `groupedObject`.) -/
def mkGroup (data : List Tag) (k : Nat) : TagGroup :=
  match data.find? fun t => t.tag_type.id == k with
  | some a => { mkGroupOfType a.tag_type with
                  menuItems := data.filter fun t => t.tag_type.id == k }
  | none => mkGroupOfType
      { id := k, name := "", description := "", icon := "", color := "",
        exclusive := false }

/-- Character-list version of `String.startsWith` for the substring test:
does `hay` start with `needle`? -/
def leadsWith : List Char → List Char → Bool
  | [], _ => true
  | _ :: _, [] => false
  | c :: cs, d :: ds => c == d && leadsWith cs ds

/-- Character-list version of JS `String.prototype.includes`: does `hay`
contain `needle` as a contiguous substring? -/
def hasSub : List Char → List Char → Bool
  | [], needle => leadsWith needle []
  | d :: t, needle => leadsWith needle (d :: t) || hasSub t needle

/-- JS `s.includes(sub)` on strings. -/
def jsIncludes (s sub : String) : Bool :=
  hasSub s.data sub.data

/-- JS `s.split(c)` on a character sequence: the maximal runs between
occurrences of `c` (so a string of `n` occurrences yields `n + 1` parts). -/
def splitChars (c : Char) : List Char → List (List Char)
  | [] => [[]]
  | d :: t =>
    if d == c then [] :: splitChars c t
    else
      match splitChars c t with
      | [] => [[d]]
      | h :: rt => (d :: h) :: rt

/-- JS `s.split(c)` on strings. -/
def jsSplit (s : String) (c : Char) : List String :=
  (splitChars c s.data).map fun l => ⟨l⟩

/-- JS `toLowerCase` on a string, as its character sequence. -/
def charsLower (s : String) : List Char :=
  s.data.map Char.toLower

/-- The item predicate of `performSearch`:
`item.name.toLowerCase().includes(searchQuery.toLowerCase())`. -/
def matchesQuery (q : String) (item : Tag) : Bool :=
  hasSub (charsLower item.name) (charsLower q)

/-- `performSearch`: reset `filteredMenuItems` to `[]`, then for each group in
order push the group's matching menu items. -/
def performSearch (groups : List TagGroup) (q : String) : List Tag :=
  groups.foldl (fun acc g => acc ++ g.menuItems.filter (matchesQuery q)) []

/-- JS `Array.prototype.join(sep)`: empty array gives `""`, otherwise the
elements interleaved with the separator. -/
def jsJoin (sep : String) : List String → String
  | [] => ""
  | h :: t => t.foldl (fun acc s => acc ++ sep ++ s) h

/-- `copyTags`: the text written to the clipboard
(`selectedItems.map(item => item.tag_type.name + "/" + item.name).join(", ")`)
and the `snackbar` flag, which is set to `true`. -/
def copyTags (sel : List Tag) : String × Bool :=
  (jsJoin ", " (sel.map fun item => item.tag_type.name ++ "/" ++ item.name),
    true)

/-- A filter condition `{ model, field, op, value }` as placed in the
`filters` object sent to the tag search API. -/
structure FilterCond where
  model : String
  field : String
  op : String
  value : String
deriving DecidableEq, Repr

/-- The `ALL_DISCOVERABILITY_TYPES` constant. -/
def ALL_DISCOVERABILITY_TYPES : List FilterCond :=
  [⟨"TagType", "discoverable_incident", "==", "true"⟩,
   ⟨"TagType", "discoverable_case", "==", "true"⟩,
   ⟨"TagType", "discoverable_signal", "==", "true"⟩,
   ⟨"TagType", "discoverable_query", "==", "true"⟩,
   ⟨"TagType", "discoverable_source", "==", "true"⟩]

/-- The `project` prop: `null`, a single project object, or an array of
project objects (projects themselves are opaque here). -/
inductive ProjectProp where
  | null
  | object (p : String)
  | array (ps : List String)
deriving DecidableEq, Repr

/-- The named filter lists `fetchData` builds into `filters`. -/
structure Filters where
  project : Option (List String)
  tagFilter : List FilterCond
  tagTypeFilter : List FilterCond
deriving DecidableEq, Repr

/-- The table options `fetchData` hands to
`SearchUtils.createParametersFromTableOptions` / `TagApi.getAll`. -/
structure FilterOptions where
  q : Option String
  itemsPerPage : Nat
  sortBy : List String
  descending : List Bool
  filters : Filters
deriving DecidableEq, Repr

/-- The `filters["project"]` entry: present for a non-null object prop or a
non-empty array prop. -/
def projectFilter : ProjectProp → Option (List String)
  | .null => none
  | .object p => some [p]
  | .array ps => if ps.length > 0 then some ps else none

/-- JS truthiness of the nullable string `filterOptions.q` (`null` and `""`
are falsy). -/
def qTruthy : Option String → Bool
  | none => false
  | some s => !(s == "")

/-- The body of `fetchData` as a function of the initial `q` value, the
`model` prop and the `project` prop: builds the tag filter, splits `q` at the
first `/` into a tag-type name filter plus remaining text query when `q` is
truthy and contains a `/`, and otherwise keeps `q` and uses only the
discoverability conditions. -/
def buildFilterOptions (q0 : Option String) (model : Option String)
    (project : ProjectProp) : FilterOptions :=
  let tagFilter : List FilterCond := [⟨"Tag", "discoverable", "==", "true"⟩]
  if qTruthy q0 && (q0.getD "").data.contains '/' then
    let parts := jsSplit (q0.getD "") '/'
    let tagType := parts.headD ""
    let query := (parts.drop 1).headD ""
    let ttf := match model with
      | some m =>
        [⟨"TagType", "name", "==", tagType⟩,
         ⟨"TagType", "discoverable_" ++ m, "==", "true"⟩]
      | none => ⟨"TagType", "name", "==", tagType⟩ :: ALL_DISCOVERABILITY_TYPES
    { q := some query, itemsPerPage := 100, sortBy := ["tag_type.name"],
      descending := [false],
      filters := { project := projectFilter project, tagFilter := tagFilter,
                   tagTypeFilter := ttf } }
  else
    let ttf := match model with
      | some m => [⟨"TagType", "discoverable_" ++ m, "==", "true"⟩]
      | none => ALL_DISCOVERABILITY_TYPES
    { q := q0, itemsPerPage := 100, sortBy := ["tag_type.name"],
      descending := [false],
      filters := { project := projectFilter project, tagFilter := tagFilter,
                   tagTypeFilter := ttf } }

/-- The options `fetchData` actually sends: it initializes `filterOptions.q`
to `null` and never reads the component's `searchQuery` ref, so the request is
independent of the local search query (the `searchQuery` argument is taken
only to state that independence). -/
def fetchDataOptions (searchQuery : String) (model : Option String)
    (project : ProjectProp) : FilterOptions :=
  buildFilterOptions none model project

/-- Concrete tag types used for concrete evaluations. -/
def ttPriority : TagType :=
  { id := 1, name := "priority", description := "prio", icon := "flag",
    color := "red", exclusive := true }

def ttSeverity : TagType :=
  { id := 2, name := "severity", description := "sev", icon := "alert",
    color := "blue", exclusive := false }

/-- A concrete tag with id 1. -/
def tagA : Tag := { id := 1, name := "a", color := "red", tag_type := ttPriority }

/-- A different concrete tag that shares id 1 with `tagA`. -/
def tagB : Tag := { id := 1, name := "b", color := "red", tag_type := ttPriority }

/-- A concrete tag with id 7. -/
def tagC : Tag := { id := 7, name := "c", color := "blue", tag_type := ttSeverity }

/-- A throwaway tag type for search examples. -/
def ttMisc : TagType :=
  { id := 3, name := "misc", description := "", icon := "", color := "",
    exclusive := false }

/-- Concrete tags named `Alpha`, `Box` and `Exit` for the search examples. -/
def tagAlpha : Tag := { id := 11, name := "Alpha", color := "", tag_type := ttMisc }

def tagBox : Tag := { id := 12, name := "Box", color := "", tag_type := ttMisc }

def tagExit : Tag := { id := 13, name := "Exit", color := "", tag_type := ttMisc }

/-- A group holding the `Alpha`/`Box`/`Exit` tags. -/
def gAbe : TagGroup :=
  { mkGroupOfType ttMisc with menuItems := [tagAlpha, tagBox, tagExit] }

/-- A group holding only `Alpha` and `Box`. -/
def gAb : TagGroup :=
  { mkGroupOfType ttMisc with menuItems := [tagAlpha, tagBox] }

/-- A second priority tag, distinct from `tagA` in `id` as well. -/
def tagA2 : Tag := { id := 2, name := "a2", color := "red", tag_type := ttPriority }

/-- A concrete exclusive group whose menu holds `tagA` and `tagA2`. -/
def gEx : TagGroup :=
  { mkGroupOfType ttPriority with menuItems := [tagA, tagA2] }

/-- The selection of the spec's clipboard example. -/
def tagP1 : Tag :=
  { id := 21, name := "P1", color := "",
    tag_type := { id := 31, name := "priority", description := "", icon := "",
                  color := "", exclusive := true } }

def tagSev1 : Tag :=
  { id := 22, name := "sev1", color := "",
    tag_type := { id := 32, name := "severity", description := "", icon := "",
                  color := "", exclusive := true } }

/-! ### Concrete evaluations of the embedded operations -/

example : toggle [] tagA = [tagA] := by decide
example : toggle [tagA] tagA = [] := by decide
example : toggle [tagA] tagB = [tagA, tagB] := by decide
example : removeItem [tagA, tagC] 1 = [tagC] := by decide
example : emitSelection [.str "x", .tag tagA] = [.tag tagA] := by decide
example :
    disabledAttr [tagA]
      { id := 1, icon := "", label := "", desc := "", color := "",
        isExclusive := true, menuItems := [] } tagC = true := by decide

example : firstSeenIds [tagC, tagA] = [2, 1] := by decide
example : (convertData [tagC, tagA]).map TagGroup.id = [1, 2] := by decide
example : convertData [tagA, tagC, tagB] =
    [{ mkGroupOfType ttPriority with menuItems := [tagA, tagB] },
     { mkGroupOfType ttSeverity with menuItems := [tagC] }] := by decide
example : jsIncludes "alpha" "lo" = false := by decide
example : jsIncludes "alpha" "al" = true := by decide
example : jsIncludes "alpha" "" = true := by decide
example : jsJoin ", " ["a", "b", "c"] = "a, b, c" := by decide
example : (buildFilterOptions (some "priority/high") none .null).q
    = some "high" := by decide
example : (fetchDataOptions "priority/high" (some "incident") .null).q
    = none := by decide
example : performSearch [gAbe] "x" = [tagBox, tagExit] := by decide
example : performSearch [gAb] "lo" = [] := by decide
example : performSearch [gAb] "ALPH" = [tagAlpha] := by decide
example : (copyTags [tagP1, tagSev1]).1 = "priority/P1, severity/sev1" := by
  decide
example : (buildFilterOptions (some "priority/high") none .null).filters.tagTypeFilter
    = ⟨"TagType", "name", "==", "priority"⟩ :: ALL_DISCOVERABILITY_TYPES := by
  decide


/-! ### Helper lemmas -/

theorem jsJoin_go (sep : String) (l : List String) (acc : String) :
    String.intercalate.go acc sep l
      = l.foldl (fun a s => a ++ sep ++ s) acc := by
  induction l generalizing acc with
  | nil => rfl
  | cons h t ih => simp [String.intercalate.go, List.foldl_cons, ih]

theorem jsJoin_eq_intercalate (sep : String) (l : List String) :
    jsJoin sep l = String.intercalate sep l := by
  cases l with
  | nil => rfl
  | cons h t => simp [jsJoin, String.intercalate, jsJoin_go]

theorem leadsWith_iff (n h : List Char) : leadsWith n h = true ↔ n <+: h := by
  induction n generalizing h with
  | nil => simp [leadsWith]
  | cons c cs ih =>
    cases h with
    | nil => simp [leadsWith, List.prefix_nil]
    | cons d ds => simp [leadsWith, List.cons_prefix_cons, ih]

theorem hasSub_iff (h n : List Char) : hasSub h n = true ↔ n <:+: h := by
  induction h with
  | nil => simp [hasSub, leadsWith_iff, List.infix_nil, List.prefix_nil]
  | cons d t ih => simp [hasSub, leadsWith_iff, ih, List.infix_cons_iff]

theorem filterMap_eq_map_of {α β : Type _} (f : α → Option β) (g : α → β) :
    ∀ l : List α, (∀ x ∈ l, f x = some (g x)) → l.filterMap f = l.map g
  | [], _ => rfl
  | x :: t, hl => by
    simp only [List.filterMap_cons, hl x (by simp), List.map_cons,
      filterMap_eq_map_of f g t fun y hy => hl y (by simp [hy])]

/-! ### Claim theorems -/

/-- C10: for every group whose `isExclusive` flag is false, no item checkbox
in that group is ever disabled, for every selection state: the `:disabled`
binding is the conjunction `group.isExclusive && isItemDisabled(group, item)`,
so it is false whenever the group is not exclusive. -/
theorem tagPicker_C10 (g : TagGroup) (sel : List Tag) (item : Tag)
    (h : g.isExclusive = false) : disabledAttr sel g item = false := by
  simp [disabledAttr, h]

theorem tagPicker_C10_witness :
    gAb.isExclusive = false ∧ disabledAttr [tagA] gAb tagAlpha = false :=
  ⟨by decide, tagPicker_C10 gAb [tagA] tagAlpha (by decide)⟩

/-- C2: for an exclusive group `g` and an item of its menu, the checkbox is
disabled iff the selection holds some tag of the group's tag type and no tag
with the item's id; hence with a tag of `g` selected, every menu item whose id
is not selected is disabled, and any item whose id is selected (in particular
the selected tag itself) stays enabled. -/
theorem tagPicker_C2 (g : TagGroup) (sel : List Tag) (item : Tag)
    (hex : g.isExclusive = true) (hmem : item ∈ g.menuItems) :
    (disabledAttr sel g item = true ↔
      ((∃ s ∈ sel, s.tag_type.id = g.id) ∧ ∀ s ∈ sel, s.id ≠ item.id))
    ∧ (∀ t ∈ g.menuItems, (∃ s ∈ sel, s.tag_type.id = g.id) →
        (∀ s ∈ sel, s.id ≠ t.id) → disabledAttr sel g t = true)
    ∧ (∀ t ∈ g.menuItems, (∃ s ∈ sel, s.id = t.id) →
        disabledAttr sel g t = false) := by
  have key : ∀ t : Tag, disabledAttr sel g t = true ↔
      ((∃ s ∈ sel, s.tag_type.id = g.id) ∧ ∀ s ∈ sel, s.id ≠ t.id) := by
    intro t
    simp [disabledAttr, isItemDisabled, hex, List.any_eq_true]
  refine ⟨key item, ?_, ?_⟩
  · intro t _ h1 h2
    exact (key t).2 ⟨h1, h2⟩
  · intro t _ hsel
    obtain ⟨s, hs, hid⟩ := hsel
    have hfalse : ¬ disabledAttr sel g t = true := by
      rw [key t]
      rintro ⟨-, hall⟩
      exact hall s hs hid
    simpa using hfalse

theorem tagPicker_C2_witness :
    gEx.isExclusive = true ∧ tagA2 ∈ gEx.menuItems
    ∧ disabledAttr [tagA] gEx tagA2 = true
    ∧ disabledAttr [tagA] gEx tagA = false :=
  ⟨by decide, by decide,
    (tagPicker_C2 gEx [tagA] tagA2 (by decide) (by decide)).2.1 tagA2
      (by decide) ⟨tagA, by decide, by decide⟩ (by decide),
    (tagPicker_C2 gEx [tagA] tagA (by decide) (by decide)).2.2 tagA
      (by decide) ⟨tagA, by decide, by decide⟩⟩

/-- C8: the `selectedItems` setter drops every string-typed entry from the
assigned array and emits the remaining entries unchanged and in order (it is a
total function, so no error is raised): the emitted list has no string entry,
is a sublist of the assigned array, and keeps every non-string entry with its
multiplicity. -/
theorem tagPicker_C8 (value : List SelEntry) :
    (∀ e ∈ emitSelection value, isStringEntry e = false)
    ∧ (emitSelection value).Sublist value
    ∧ ∀ e, isStringEntry e = false →
        (emitSelection value).count e = value.count e := by
  refine ⟨?_, List.filter_sublist _, ?_⟩
  · intro e he
    have := List.of_mem_filter he
    simpa using this
  · intro e he
    exact List.count_filter (by simp [he])

theorem tagPicker_C8_witness :
    isStringEntry (.tag tagA) = false
    ∧ (∀ e ∈ emitSelection [.str "x", .tag tagA], isStringEntry e = false)
    ∧ (emitSelection [.str "x", .tag tagA]).Sublist [.str "x", .tag tagA]
    ∧ (emitSelection [.str "x", .tag tagA]).count (.tag tagA)
        = [SelEntry.str "x", SelEntry.tag tagA].count (.tag tagA) :=
  ⟨by decide, (tagPicker_C8 [.str "x", .tag tagA]).1,
    (tagPicker_C8 [.str "x", .tag tagA]).2.1,
    (tagPicker_C8 [.str "x", .tag tagA]).2.2 (.tag tagA) (by decide)⟩

/-- C9: `copyTags` writes to the clipboard the strings
`"{tag_type.name}/{name}"` of the selected tags, joined by `", "` in selection
order, and sets the success snackbar; on the spec's example selection the text
is `"priority/P1, severity/sev1"`. -/
theorem tagPicker_C9 (sel : List Tag) :
    (copyTags sel).1
        = String.intercalate ", "
            (sel.map fun item => item.tag_type.name ++ "/" ++ item.name)
    ∧ (copyTags sel).2 = true
    ∧ (copyTags [tagP1, tagSev1]).1 = "priority/P1, severity/sev1" :=
  ⟨jsJoin_eq_intercalate _ _, rfl, by decide⟩

/-- C5 counterexample: the claim says a toggled item is *removed* when it is
absent from the selection; toggling `tagA` on the empty selection (where it is
absent) in fact appends it. -/
theorem tagPicker_C5_counterexample :
    tagA ∉ ([] : List Tag) ∧ toggle [] tagA = [tagA] := by
  decide

/-- C5 (amended): toggling appends the item when it is *absent* from the
selection and removes (the first equal occurrence of) it when it is *present*;
the resulting array passes unchanged through the setter's string filter and is
emitted. -/
theorem tagPicker_C5_amended (sel : List Tag) (item : Tag) :
    (item ∉ sel → toggle sel item = sel ++ [item])
    ∧ (item ∈ sel → toggle sel item = sel.erase item)
    ∧ emitSelection ((toggle sel item).map SelEntry.tag)
        = (toggle sel item).map SelEntry.tag := by
  refine ⟨fun h => by simp [toggle, h], fun h => by simp [toggle, h], ?_⟩
  rw [emitSelection, List.filter_eq_self]
  intro e he
  obtain ⟨t, -, rfl⟩ := List.mem_map.1 he
  simp [isStringEntry]

theorem tagPicker_C5_witness :
    tagC ∉ [tagA] ∧ toggle [tagA] tagC = [tagA] ++ [tagC] :=
  ⟨by decide, (tagPicker_C5_amended [tagA] tagC).1 (by decide)⟩

/-- C7 counterexample: the claim says the query `"lo"` over items named
`"Alpha"` and `"Box"` yields exactly `["Alpha"]`; `"alpha"` does not contain
`"lo"` as a substring, so the filter yields the empty list instead. -/
theorem tagPicker_C7_counterexample :
    performSearch [gAb] "lo" ≠ [tagAlpha] := by
  decide

/-- C7 (amended): query `"x"` over items named `"Alpha"`, `"Box"`, `"Exit"`
yields exactly the `Box` and `Exit` items; query `"lo"` over `"Alpha"`,
`"Box"` yields the empty list. -/
theorem tagPicker_C7_amended :
    performSearch [gAbe] "x" = [tagBox, tagExit]
    ∧ performSearch [gAb] "lo" = [] := by
  decide

/-- C4: evaluation of the fetch-options construction at the failing input.
`fetchData` initializes its `q` to `null` and never reads the `searchQuery`
ref, so even when the local search query is `"priority/high"` the request
carries `q = null` and a `tagTypeFilter` holding only the discoverability
condition — no exact-match tag-type-name condition.  The split logic exists
(`buildFilterOptions` with a non-null `q` produces exactly what the claim
describes) but is unreachable. -/
theorem tagPicker_C4_evaluation :
    (fetchDataOptions "priority/high" (some "incident") .null).q = none
    ∧ (fetchDataOptions "priority/high" (some "incident") .null).filters.tagTypeFilter
        = [⟨"TagType", "discoverable_incident", "==", "true"⟩]
    ∧ (∀ c ∈ (fetchDataOptions "priority/high" (some "incident") .null).filters.tagTypeFilter,
        c.field ≠ "name")
    ∧ (buildFilterOptions (some "priority/high") (some "incident") .null).q
        = some "high"
    ∧ (buildFilterOptions (some "priority/high") (some "incident") .null).filters.tagTypeFilter
        = [⟨"TagType", "name", "==", "priority"⟩,
           ⟨"TagType", "discoverable_incident", "==", "true"⟩] := by
  decide

/-- C1 counterexample: starting from the duplicate-free selection `[tagA]`
and toggling `tagB`, which has `tagA`'s id but is a different object, the
emitted selection holds two tags with id 1. -/
theorem tagPicker_C1_counterexample :
    ¬ ((toggle [tagA] tagB).map Tag.id).Nodup := by
  decide

/-- C1 (amended): if the starting selection has pairwise-distinct ids, then
(a) toggling an item keeps the ids pairwise distinct provided every selection
entry sharing the item's id is (deep-)equal to the item, and (b) removing an
id always keeps the ids pairwise distinct. -/
theorem tagPicker_C1_amended (sel : List Tag) (item : Tag) (i : Nat)
    (hnd : (sel.map Tag.id).Nodup)
    (hcompat : ∀ t ∈ sel, t.id = item.id → t = item) :
    ((toggle sel item).map Tag.id).Nodup
    ∧ ((removeItem sel i).map Tag.id).Nodup := by
  constructor
  · by_cases h : item ∈ sel
    · have hsub : ((sel.erase item).map Tag.id).Sublist (sel.map Tag.id) :=
        (List.erase_sublist item sel).map Tag.id
      simpa [toggle, h] using hnd.sublist hsub
    · have hnotin : item.id ∉ sel.map Tag.id := by
        intro hm
        obtain ⟨t, ht, hid⟩ := List.mem_map.1 hm
        exact h (hcompat t ht hid ▸ ht)
      simp [toggle, h, List.nodup_append, hnd, hnotin, List.disjoint_singleton]
  · have hsub : ((removeItem sel i).map Tag.id).Sublist (sel.map Tag.id) :=
      (List.filter_sublist sel).map Tag.id
    exact hnd.sublist hsub

theorem tagPicker_C1_witness :
    ([tagA].map Tag.id).Nodup
    ∧ (∀ t ∈ [tagA], t.id = tagC.id → t = tagC)
    ∧ ((toggle [tagA] tagC).map Tag.id).Nodup
    ∧ ((removeItem [tagA] 5).map Tag.id).Nodup :=
  ⟨by decide, by decide,
    (tagPicker_C1_amended [tagA] tagC 5 (by decide) (by decide)).1,
    (tagPicker_C1_amended [tagA] tagC 5 (by decide) (by decide)).2⟩

theorem performSearch_foldl (q : String) :
    ∀ (gs : List TagGroup) (acc : List Tag),
      gs.foldl (fun acc g => acc ++ g.menuItems.filter (matchesQuery q)) acc
        = acc ++ (gs.map fun g => g.menuItems.filter (matchesQuery q)).flatten
  | [], acc => by simp
  | g :: gs, acc => by
    rw [List.foldl_cons, performSearch_foldl q gs]
    simp [List.append_assoc]

/-- C6: recomputing the search over a groups list concatenates, group by group
in group order, each group's menu items whose lowercased name contains the
lowercased query as a substring; membership in the result is exactly that
case-insensitive substring condition. -/
theorem tagPicker_C6 (groups : List TagGroup) (q : String) :
    performSearch groups q
        = (groups.map fun g => g.menuItems.filter (matchesQuery q)).flatten
    ∧ ∀ t, t ∈ performSearch groups q ↔
        ∃ g ∈ groups, t ∈ g.menuItems ∧ charsLower q <:+: charsLower t.name := by
  have hflat : performSearch groups q
      = (groups.map fun g => g.menuItems.filter (matchesQuery q)).flatten := by
    rw [performSearch, performSearch_foldl]
    simp
  refine ⟨hflat, fun t => ?_⟩
  rw [hflat]
  simp only [List.mem_flatten, List.mem_map]
  constructor
  · rintro ⟨l, ⟨g, hg, rfl⟩, hmem⟩
    rw [List.mem_filter] at hmem
    exact ⟨g, hg, hmem.1, (hasSub_iff _ _).1 hmem.2⟩
  · rintro ⟨g, hg, ht, hinf⟩
    refine ⟨g.menuItems.filter (matchesQuery q), ⟨g, hg, rfl⟩, ?_⟩
    rw [List.mem_filter]
    exact ⟨ht, (hasSub_iff _ _).2 hinf⟩

theorem tagPicker_C6_witness :
    tagBox ∈ performSearch [gAbe] "x"
      ↔ ∃ g ∈ [gAbe], tagBox ∈ g.menuItems
          ∧ charsLower "x" <:+: charsLower tagBox.name :=
  (tagPicker_C6 [gAbe] "x").2 tagBox

theorem groupedObject_append (data : List Tag) (a : Tag) :
    groupedObject (data ++ [a]) = addToGroup (groupedObject data) a := by
  simp [groupedObject, List.foldl_append]

theorem firstSeenIds_append (data : List Tag) (a : Tag) :
    firstSeenIds (data ++ [a])
      = if a.tag_type.id ∈ firstSeenIds data then firstSeenIds data
        else firstSeenIds data ++ [a.tag_type.id] := by
  simp [firstSeenIds, List.foldl_append]

theorem mem_firstSeenIds (data : List Tag) (k : Nat) :
    k ∈ firstSeenIds data ↔ ∃ t ∈ data, t.tag_type.id = k := by
  induction data using List.reverseRecOn with
  | nil => simp [firstSeenIds]
  | append_singleton l a ih =>
    rw [firstSeenIds_append]
    by_cases h : a.tag_type.id ∈ firstSeenIds l
    · rw [if_pos h, ih]
      constructor
      · rintro ⟨t, ht, hid⟩
        exact ⟨t, List.mem_append_left _ ht, hid⟩
      · rintro ⟨t, ht, hid⟩
        rcases List.mem_append.1 ht with h1 | h1
        · exact ⟨t, h1, hid⟩
        · have ha : t = a := by simpa using h1
          subst ha
          exact ih.1 (hid ▸ h)
    · rw [if_neg h]
      simp only [List.mem_append, List.mem_singleton, ih]
      constructor
      · rintro (⟨t, ht, hid⟩ | rfl)
        · exact ⟨t, Or.inl ht, hid⟩
        · exact ⟨a, Or.inr rfl, rfl⟩
      · rintro ⟨t, ht | rfl, hid⟩
        · exact Or.inl ⟨t, ht, hid⟩
        · exact Or.inr hid.symm

theorem firstSeenIds_nodup (data : List Tag) : (firstSeenIds data).Nodup := by
  induction data using List.reverseRecOn with
  | nil => simp [firstSeenIds]
  | append_singleton l a ih =>
    rw [firstSeenIds_append]
    by_cases h : a.tag_type.id ∈ firstSeenIds l
    · rwa [if_pos h]
    · rw [if_neg h]
      simp [List.nodup_append, ih, h]

theorem mkGroup_append_ne (data : List Tag) (a : Tag) (k : Nat)
    (h : a.tag_type.id ≠ k) : mkGroup (data ++ [a]) k = mkGroup data k := by
  have h2 : (data ++ [a]).find? (fun t => t.tag_type.id == k)
      = data.find? (fun t => t.tag_type.id == k) := by
    rw [List.find?_append]
    have hone : List.find? (fun t => t.tag_type.id == k) [a] = none := by
      rw [List.find?_cons_of_neg _ (by simp [h])]
      rfl
    rw [hone]
    cases data.find? fun t => t.tag_type.id == k <;> rfl
  have h3 : (data ++ [a]).filter (fun t => t.tag_type.id == k)
      = data.filter (fun t => t.tag_type.id == k) := by
    rw [List.filter_append]
    simp [h]
  unfold mkGroup
  rw [h2, h3]

theorem mkGroup_append_mem (data : List Tag) (a : Tag)
    (h : ∃ t ∈ data, t.tag_type.id = a.tag_type.id) :
    mkGroup (data ++ [a]) a.tag_type.id
      = { mkGroup data a.tag_type.id with
          menuItems := (mkGroup data a.tag_type.id).menuItems ++ [a] } := by
  obtain ⟨t0, ht0, hid0⟩ := h
  cases hf : data.find? fun t => t.tag_type.id == a.tag_type.id with
  | none =>
    rw [List.find?_eq_none] at hf
    exact absurd (by simp [hid0]) (hf t0 ht0)
  | some b =>
    have h2 : (data ++ [a]).find? (fun t => t.tag_type.id == a.tag_type.id)
        = some b := by
      rw [List.find?_append, hf]
      rfl
    unfold mkGroup
    rw [h2, hf, List.filter_append]
    simp

theorem mkGroup_append_new (data : List Tag) (a : Tag)
    (h : ∀ t ∈ data, t.tag_type.id ≠ a.tag_type.id) :
    mkGroup (data ++ [a]) a.tag_type.id
      = { mkGroupOfType a.tag_type with menuItems := [a] } := by
  have hf : data.find? (fun t => t.tag_type.id == a.tag_type.id) = none :=
    List.find?_eq_none.2 fun t ht => by simp [h t ht]
  have h2 : (data ++ [a]).find? (fun t => t.tag_type.id == a.tag_type.id)
      = some a := by
    rw [List.find?_append, hf]
    rw [List.find?_cons_of_pos _ (by simp)]
    rfl
  have h3 : data.filter (fun t => t.tag_type.id == a.tag_type.id) = [] :=
    List.filter_eq_nil_iff.2 fun t ht => by simp [h t ht]
  unfold mkGroup
  rw [h2, List.filter_append, h3]
  simp

theorem groupedObject_eq (data : List Tag) :
    groupedObject data = (firstSeenIds data).map fun k => (k, mkGroup data k) := by
  induction data using List.reverseRecOn with
  | nil => rfl
  | append_singleton l a ih =>
    rw [groupedObject_append, ih, firstSeenIds_append]
    unfold addToGroup
    by_cases hmem : a.tag_type.id ∈ firstSeenIds l
    · have hany : (((firstSeenIds l).map fun k => (k, mkGroup l k)).any
          fun p => p.1 == a.tag_type.id) = true := by
        rw [List.any_eq_true]
        exact ⟨(a.tag_type.id, mkGroup l a.tag_type.id),
          List.mem_map.2 ⟨a.tag_type.id, hmem, rfl⟩, by simp⟩
      rw [if_pos hany, if_pos hmem, List.map_map]
      apply List.map_congr_left
      intro k hk
      simp only [Function.comp]
      by_cases hka : k = a.tag_type.id
      · subst hka
        rw [if_pos (by simp)]
        rw [mkGroup_append_mem l a ((mem_firstSeenIds l _).1 hmem)]
      · rw [if_neg (by simp [hka])]
        rw [mkGroup_append_ne l a k fun e => hka e.symm]
    · have hany : (((firstSeenIds l).map fun k => (k, mkGroup l k)).any
          fun p => p.1 == a.tag_type.id) = false := by
        rw [List.any_eq_false]
        intro p hp
        obtain ⟨k', hk', rfl⟩ := List.mem_map.1 hp
        simp only [beq_iff_eq]
        intro he
        exact hmem (he ▸ hk')
      rw [if_neg (by simp [hany]), if_neg hmem, List.map_append]
      congr 1
      · apply List.map_congr_left
        intro k hk
        rw [mkGroup_append_ne l a k fun e => hmem (e ▸ hk)]
      · have hnew : ∀ t ∈ l, t.tag_type.id ≠ a.tag_type.id := fun t ht he =>
          hmem ((mem_firstSeenIds l _).2 ⟨t, ht, he⟩)
        simp only [List.map_cons, List.map_nil]
        rw [mkGroup_append_new l a hnew]

theorem groupedObject_keys (data : List Tag) :
    (groupedObject data).map Prod.fst = firstSeenIds data := by
  rw [groupedObject_eq, List.map_map]
  exact List.map_id _ ▸ rfl

theorem find?_beq_of_mem {k : Nat} : ∀ {l : List Nat}, k ∈ l →
    l.find? (fun x => x == k) = some k
  | x :: t, hmem => by
    by_cases hx : x = k
    · subst hx
      rw [List.find?_cons_of_pos _ (by simp)]
    · rw [List.find?_cons_of_neg _ (by simp [hx])]
      exact find?_beq_of_mem (by
        rcases List.mem_cons.1 hmem with h | h
        · exact absurd h.symm hx
        · exact h)

theorem find?_groupedObject (data : List Tag) (k : Nat)
    (hk : k ∈ firstSeenIds data) :
    ((groupedObject data).find? fun p => p.1 == k) = some (k, mkGroup data k) := by
  rw [groupedObject_eq, List.find?_map]
  have hcomp : ((fun p : Nat × TagGroup => p.1 == k) ∘ fun k' => (k', mkGroup data k'))
      = fun k' => k' == k := rfl
  rw [hcomp, find?_beq_of_mem hk]
  rfl

theorem convertData_eq (data : List Tag) :
    convertData data
      = ((firstSeenIds data).insertionSort (· ≤ ·)).map (mkGroup data) := by
  rw [convertData, objectKeys, groupedObject_keys]
  apply filterMap_eq_map_of
  intro k hk
  have hmem : k ∈ firstSeenIds data :=
    (List.perm_insertionSort (· ≤ ·) (firstSeenIds data)).mem_iff.1 hk
  rw [find?_groupedObject data k hmem]
  rfl

theorem mkGroup_spec (data : List Tag) (k : Nat)
    (hk : ∃ t ∈ data, t.tag_type.id = k) :
    ∃ a, (data.find? fun t => t.tag_type.id == k) = some a
      ∧ a.tag_type.id = k
      ∧ mkGroup data k = { mkGroupOfType a.tag_type with
          menuItems := data.filter fun t => t.tag_type.id == k } := by
  obtain ⟨t0, ht0, hid0⟩ := hk
  cases hf : data.find? fun t => t.tag_type.id == k with
  | none =>
    rw [List.find?_eq_none] at hf
    exact absurd (by simp [hid0]) (hf t0 ht0)
  | some a =>
    refine ⟨a, rfl, by simpa using List.find?_some hf, ?_⟩
    unfold mkGroup
    rw [hf]

theorem mkGroup_id (data : List Tag) (k : Nat)
    (hk : ∃ t ∈ data, t.tag_type.id = k) : (mkGroup data k).id = k := by
  obtain ⟨a, -, haid, heq⟩ := mkGroup_spec data k hk
  rw [heq]
  simpa [mkGroupOfType] using haid

/-- C3 counterexample: on the fetch order `[tagC, tagA]` (tag-type ids 2 then
1) the first-seen order of tag-type ids is `[2, 1]`, but `convertData` emits
the groups in ascending id order `[1, 2]`: JS objects order integer-like keys
numerically, not by insertion. -/
theorem tagPicker_C3_counterexample :
    firstSeenIds [tagC, tagA] = [2, 1]
    ∧ (convertData [tagC, tagA]).map TagGroup.id = [1, 2]
    ∧ (convertData [tagC, tagA]).map TagGroup.id ≠ firstSeenIds [tagC, tagA] := by
  decide

/-- C3 (amended): grouping produces exactly one group per distinct
`tag_type.id` of the fetched list — the group ids are strictly ascending (so
the groups appear in ascending numeric order of `tag_type.id`, not first-seen
order) and are exactly the fetched tag-type ids; each group's `menuItems` is
the sublist of fetched tags with that id, in fetch order; and group metadata
is copied from the first such tag's `tag_type`. -/
theorem tagPicker_C3_amended (data : List Tag) :
    ((convertData data).map TagGroup.id).Sorted (· < ·)
    ∧ (∀ k, k ∈ (convertData data).map TagGroup.id ↔ ∃ t ∈ data, t.tag_type.id = k)
    ∧ ∀ g ∈ convertData data, ∃ a,
        (data.find? fun t => t.tag_type.id == g.id) = some a
        ∧ g.id = a.tag_type.id ∧ g.icon = a.tag_type.icon
        ∧ g.label = a.tag_type.name ∧ g.desc = a.tag_type.description
        ∧ g.color = a.tag_type.color ∧ g.isExclusive = a.tag_type.exclusive
        ∧ g.menuItems = data.filter fun t => t.tag_type.id == g.id := by
  have hperm := List.perm_insertionSort (· ≤ ·) (firstSeenIds data)
  have hids : (convertData data).map TagGroup.id
      = (firstSeenIds data).insertionSort (· ≤ ·) := by
    rw [convertData_eq, List.map_map]
    have hcongr : ∀ k ∈ (firstSeenIds data).insertionSort (· ≤ ·),
        (TagGroup.id ∘ mkGroup data) k = id k := by
      intro k hk
      exact mkGroup_id data k
        ((mem_firstSeenIds data k).1 (hperm.mem_iff.1 hk))
    rw [List.map_congr_left hcongr, List.map_id]
  refine ⟨?_, ?_, ?_⟩
  · rw [hids]
    exact (List.sorted_insertionSort _ _).lt_of_le
      (hperm.nodup_iff.2 (firstSeenIds_nodup data))
  · intro k
    rw [hids, hperm.mem_iff, mem_firstSeenIds]
  · intro g hg
    rw [convertData_eq] at hg
    obtain ⟨k, hkS, rfl⟩ := List.mem_map.1 hg
    have hex : ∃ t ∈ data, t.tag_type.id = k :=
      (mem_firstSeenIds data k).1 (hperm.mem_iff.1 hkS)
    obtain ⟨a, hfind, haid, heq⟩ := mkGroup_spec data k hex
    have hgid : (mkGroup data k).id = k := mkGroup_id data k hex
    refine ⟨a, by rw [hgid]; exact hfind, by rw [hgid]; exact haid.symm,
      ?_, ?_, ?_, ?_, ?_, ?_⟩
    · rw [heq]; simp [mkGroupOfType]
    · rw [heq]; simp [mkGroupOfType]
    · rw [heq]; simp [mkGroupOfType]
    · rw [heq]; simp [mkGroupOfType]
    · rw [heq]; simp [mkGroupOfType]
    · rw [hgid, heq]

theorem tagPicker_C3_witness :
    (gAbe ∈ convertData [tagAlpha, tagBox, tagExit]) ∧ ∃ a,
      ([tagAlpha, tagBox, tagExit].find?
          fun t => t.tag_type.id == gAbe.id) = some a
      ∧ gAbe.id = a.tag_type.id ∧ gAbe.icon = a.tag_type.icon
      ∧ gAbe.label = a.tag_type.name ∧ gAbe.desc = a.tag_type.description
      ∧ gAbe.color = a.tag_type.color ∧ gAbe.isExclusive = a.tag_type.exclusive
      ∧ gAbe.menuItems
          = [tagAlpha, tagBox, tagExit].filter fun t => t.tag_type.id == gAbe.id :=
  ⟨by decide,
    (tagPicker_C3_amended [tagAlpha, tagBox, tagExit]).2.2 gAbe (by decide)⟩

theorem tagPicker_C9_witness :
    (copyTags [tagP1, tagSev1]).1
      = String.intercalate ", "
          ([tagP1, tagSev1].map fun item => item.tag_type.name ++ "/" ++ item.name) :=
  (tagPicker_C9 [tagP1, tagSev1]).1
